import Mathlib

/-!
Verification of the rapiddns-cli repository (Go) against its specification.

The definitions below are a shallow embedding of the program's core logic:
* the response-envelope decoder of `internal/api/client.go`
  (`Client.Search`, `Client.AdvancedQuery`),
* the pagination loop of `cmd/search.go` (`searchCmd.Run`),
* the extraction helpers `extractSubdomains` / `extractIPs` of `cmd/search.go`
  (including Go's `net.ParseIP`, `IP.Mask` and `IP.String`),
* the `unzip` and `parseCSV` helpers of `cmd/export.go`
  (including Go's `path/filepath.Clean` and `Join`).

JSON values are modelled by an explicit inductive; Go's `json.Unmarshal` into
the concrete target structs is modelled by decoding functions that mirror
encoding/json semantics for those targets (absent field = zero value, `null`
leaves a field unchanged / zeroes a slice, type mismatch = error,
case-insensitive key match, later duplicate keys overwrite).
-/

/-- A JSON value, as seen after parsing the HTTP body.  A Go `json.RawMessage`
field that is absent from the object is modelled as `Option.none` at the use
site; numbers are modelled as rationals (Go decodes every JSON number into a
`float64` when the target is `interface{}`). -/
inductive Json where
  | jnull
  | jbool (b : Bool)
  | jnum (q : Rat)
  | jstr (s : String)
  | jarr (elems : List Json)
  | jobj (fields : List (String × Json))

/-- One DNS record, mirroring `api.Record` (`internal/api/types.go`):
fields `type`, `value`, `timestamp`, `date`, `subdomain`, all strings. -/
structure Record where
  type : String := ""
  value : String := ""
  timestamp : String := ""
  date : String := ""
  subdomain : String := ""
deriving DecidableEq, Repr

/-- The record-set payload, mirroring `api.SearchData`:
`Total int`, `Status string`, `Data []Record`, `Result []Record`.
Go's zero value has empty/nil fields. -/
structure SearchData where
  total : Int := 0
  status : String := ""
  data : List Record := []
  result : List Record := []
deriving DecidableEq, Repr

/-- The decoded outer envelope, mirroring the anonymous `SearchResponse` /
`QueryResponse` structs in `Client.Search` / `Client.AdvancedQuery`:
`Status interface{}`, `Msg string`, `Message json.RawMessage`,
`Data json.RawMessage`.  `none` models an absent (nil) raw field, for which
`len(...) > 0` is false and `json.Unmarshal` fails. -/
structure Envelope where
  status : Json := .jnull
  msg : String := ""
  message : Option Json := none
  data : Option Json := none

/-- Outcome of envelope decoding, classifying the `return` statements of
`Client.Search` / `Client.AdvancedQuery` after the transport-level checks:
success with a `SearchData`, the `"API error: %s"` path, the
`"API returned data message: '%s'"` path, and the `"failed to parse data"`
path. -/
inductive DecodeOutcome where
  | ok (sd : SearchData)
  | apiError (msg : String)
  | apiDataMessage (s : String)
  | parseFailure
deriving DecidableEq, Repr

/-- ASCII lower-casing of a character (what Go's key folding does on the
ASCII keys that occur here). -/
def lowerChar (c : Char) : Char :=
  if 65 ≤ c.toNat ∧ c.toNat ≤ 90 then Char.ofNat (c.toNat + 32) else c

/-- ASCII lower-casing of a string. -/
def lowerStr (s : String) : String :=
  String.mk (s.toList.map lowerChar)

/-- Assign one JSON object member to a `Record` being decoded, mirroring
encoding/json: keys match struct tags case-insensitively, a `null` value
leaves the field unchanged, a non-string value for a string field is a
decode error (`none`), unknown keys are ignored. -/
def setRecordField (r : Record) (kv : String × Json) : Option Record :=
  let k := lowerStr kv.1
  if k = "type" then
    match kv.2 with
    | .jstr s => some { r with type := s }
    | .jnull => some r
    | _ => none
  else if k = "value" then
    match kv.2 with
    | .jstr s => some { r with value := s }
    | .jnull => some r
    | _ => none
  else if k = "timestamp" then
    match kv.2 with
    | .jstr s => some { r with timestamp := s }
    | .jnull => some r
    | _ => none
  else if k = "date" then
    match kv.2 with
    | .jstr s => some { r with date := s }
    | .jnull => some r
    | _ => none
  else if k = "subdomain" then
    match kv.2 with
    | .jstr s => some { r with subdomain := s }
    | .jnull => some r
    | _ => none
  else some r

/-- Go's `json.Unmarshal` of one JSON value into an `api.Record`: an object is
decoded field by field, `null` is a no-op yielding the zero record, anything
else fails. -/
def decodeRecord : Json → Option Record
  | .jobj fields => fields.foldlM setRecordField {}
  | .jnull => some {}
  | _ => none

/-- Assign one JSON object member to a `SearchData` being decoded, mirroring
encoding/json for the target struct: `total` wants an (integral) number,
`status` a string, `data` / `result` an array of records (or `null`, which
zeroes the slice); a type mismatch is a decode error; unknown keys are
ignored; later duplicates overwrite. -/
def setSearchDataField (sd : SearchData) (kv : String × Json) : Option SearchData :=
  let k := lowerStr kv.1
  if k = "total" then
    match kv.2 with
    | .jnum q => if q.den = 1 then some { sd with total := q.num } else none
    | .jnull => some sd
    | _ => none
  else if k = "status" then
    match kv.2 with
    | .jstr s => some { sd with status := s }
    | .jnull => some sd
    | _ => none
  else if k = "data" then
    match kv.2 with
    | .jarr xs => do
        let rs ← xs.mapM decodeRecord
        some { sd with data := rs }
    | .jnull => some { sd with data := [] }
    | _ => none
  else if k = "result" then
    match kv.2 with
    | .jarr xs => do
        let rs ← xs.mapM decodeRecord
        some { sd with result := rs }
    | .jnull => some { sd with result := [] }
    | _ => none
  else some sd

/-- Go's `json.Unmarshal` of one JSON value into an `api.SearchData`. -/
def decodeSearchData : Json → Option SearchData
  | .jobj fields => fields.foldlM setSearchDataField {}
  | .jnull => some {}
  | _ => none

/-- The status normalization of `Client.Search` / `Client.AdvancedQuery`
(client.go lines 91-96 and 157-162): `statusOK` is true iff the status is the
float64 number 200, or the string `"200"`, or the string `"ok"`. -/
def statusOK : Json → Bool
  | .jnum q => q == 200
  | .jstr s => s == "200" || s == "ok"
  | _ => false

/-- The acceptance check applied to a `SearchData` decoded from the `message`
sub-document (client.go lines 108 and 173): accepted iff it has a non-empty
`Data` list, a non-empty `Result` list, `Total > 0`, or a non-empty `Status`
string. -/
def validSearchData (sd : SearchData) : Bool :=
  !sd.data.isEmpty || !sd.result.isEmpty || decide (0 < sd.total) || sd.status != ""

/-- The `data`-sub-document fallback of `Client.Search` (client.go lines
114-121): decode `data` as a `SearchData`; failing that, decode it as a bare
string and report it as a data message; failing that, a parse failure.  An
absent `data` field makes both `json.Unmarshal` calls fail. -/
def tryDataSearch (e : Envelope) : DecodeOutcome :=
  match e.data with
  | some dj =>
    match decodeSearchData dj with
    | some sd => .ok sd
    | none =>
      match dj with
      | .jstr s => .apiDataMessage s
      | _ => .parseFailure
  | none => .parseFailure

/-- The `data`-sub-document fallback of `Client.AdvancedQuery` (client.go
lines 179-190): like the search fallback, except that the bare string `"ok"`
is the "empty success" case, returning
`SearchData{Status: "ok", Data: []Record{}}`. -/
def tryDataQuery (e : Envelope) : DecodeOutcome :=
  match e.data with
  | some dj =>
    match decodeSearchData dj with
    | some sd => .ok sd
    | none =>
      match dj with
      | .jstr s =>
        if s = "ok" then .ok { status := "ok", data := [] }
        else .apiDataMessage s
      | _ => .parseFailure
  | none => .parseFailure

/-- The envelope decoding of `Client.Search` after the transport-level
checks (client.go lines 91-123): normalize the status; on success prefer a
`SearchData` decoded from `message` when it passes `validSearchData`,
otherwise fall back to `data`. -/
def searchDecode (e : Envelope) : DecodeOutcome :=
  if statusOK e.status then
    match e.message with
    | some mj =>
      match decodeSearchData mj with
      | some sd => if validSearchData sd then .ok sd else tryDataSearch e
      | none => tryDataSearch e
    | none => tryDataSearch e
  else .apiError e.msg

/-- The envelope decoding of `Client.AdvancedQuery` after the transport-level
checks (client.go lines 157-192). -/
def advancedQueryDecode (e : Envelope) : DecodeOutcome :=
  if statusOK e.status then
    match e.message with
    | some mj =>
      match decodeSearchData mj with
      | some sd => if validSearchData sd then .ok sd else tryDataQuery e
      | none => tryDataQuery e
    | none => tryDataQuery e
  else .apiError e.msg

/-! ## The pagination loop of `cmd/search.go` (`searchCmd.Run`, lines 55-115) -/

/-- The record list a fetched page contributes (search.go lines 72-77):
`Data` when non-empty, else `Result` when non-empty, else nothing.
The same selection is reused by every consumer of a `SearchData`
(`extractSubdomains`, `extractIPs`, `saveToFile`, `printConsoleOutput`). -/
def recordsOf (sd : SearchData) : List Record :=
  if !sd.data.isEmpty then sd.data
  else if !sd.result.isEmpty then sd.result
  else []

/-- Result of a pagination run: the accumulated records, the number of page
requests issued, and the fatal error if the very first page failed. -/
structure PageRun where
  records : List Record
  requests : Nat
  fatal : Option String
deriving DecidableEq, Repr

/-- One-page fetch oracle: what `client.Search` returns for a given page
index (the keyword, page size and search type are fixed for a run). -/
def PageFetch := Nat → Except String SearchData

/-- The pagination loop body of `searchCmd.Run` (search.go lines 58-105),
accumulating into `acc`, at page `currentPage`, having issued `reqs`
requests so far.  Mirrors the Go loop: a failed fetch is fatal only when
nothing has been accumulated; an empty page stops; once the accumulated
count reaches `maxRecords` the list is trimmed to `maxRecords` and the loop
stops; a page shorter than `pageSize` stops; otherwise the next page is
fetched. -/
def paginateLoop (fetch : PageFetch) (pageSize maxRecords : Nat)
    (acc : List Record) (currentPage reqs : Nat) : PageRun :=
  match fetch currentPage with
  | .error e =>
    if acc.isEmpty then ⟨[], reqs + 1, some e⟩ else ⟨acc, reqs + 1, none⟩
  | .ok pd =>
    if hpe : (recordsOf pd).isEmpty then ⟨acc, reqs + 1, none⟩
    else if h : maxRecords ≤ (acc ++ recordsOf pd).length then
      ⟨(acc ++ recordsOf pd).take maxRecords, reqs + 1, none⟩
    else if (recordsOf pd).length < pageSize then ⟨acc ++ recordsOf pd, reqs + 1, none⟩
    else paginateLoop fetch pageSize maxRecords (acc ++ recordsOf pd) (currentPage + 1) (reqs + 1)
termination_by maxRecords - acc.length
decreasing_by
  have hne : (recordsOf pd).length ≠ 0 := by
    simpa [List.isEmpty_iff_length_eq_zero] using hpe
  have ha : (acc ++ recordsOf pd).length = acc.length + (recordsOf pd).length :=
    List.length_append acc (recordsOf pd)
  omega

/-- The whole pagination run of `searchCmd.Run`: start with no records at
the flag-selected start page, zero requests issued. -/
def paginate (fetch : PageFetch) (pageSize maxRecords startPage : Nat) : PageRun :=
  paginateLoop fetch pageSize maxRecords [] startPage 0

/-! ## Lexicographic string order (Go's `sort.Strings`)

Go compares strings byte-wise; on UTF-8 encoded strings that equals
code-point lexicographic comparison, which is what `lexLeB` computes. -/

/-- Lexicographic less-or-equal on character lists, by code point. -/
def lexLeB : List Char → List Char → Bool
  | [], _ => true
  | _ :: _, [] => false
  | a :: as, b :: bs =>
    if a.toNat < b.toNat then true
    else if b.toNat < a.toNat then false
    else lexLeB as bs

/-- Lexicographic less-or-equal on strings, as Go's `<=` on strings. -/
def strLE (a b : String) : Prop := lexLeB a.toList b.toList = true

instance : DecidableRel strLE := fun a b => by
  unfold strLE
  infer_instance

theorem lexLeB_total (as : List Char) : ∀ bs, lexLeB as bs = true ∨ lexLeB bs as = true := by
  induction as with
  | nil => intro bs; left; rfl
  | cons a as ih =>
    intro bs
    cases bs with
    | nil => right; rfl
    | cons b bs =>
      simp only [lexLeB]
      rcases Nat.lt_trichotomy a.toNat b.toNat with h | h | h
      · left; simp [h]
      · have h' : ¬ a.toNat < b.toNat := by omega
        have h'' : ¬ b.toNat < a.toNat := by omega
        rcases ih bs with hr | hr
        · left; simp [h', h'', hr]
        · right; simp [h', h'', hr]
      · right; simp [h]

theorem lexLeB_trans (as : List Char) :
    ∀ bs cs, lexLeB as bs = true → lexLeB bs cs = true → lexLeB as cs = true := by
  induction as with
  | nil => intro bs cs _ _; rfl
  | cons a as ih =>
    intro bs cs hab hbc
    cases bs with
    | nil => simp [lexLeB] at hab
    | cons b bs =>
      cases cs with
      | nil => simp [lexLeB] at hbc
      | cons c cs =>
        simp only [lexLeB] at hab hbc ⊢
        split_ifs at hab hbc ⊢ with h1 h2 h3 h4 h5 h6 <;>
          first
            | rfl
            | omega
            | (exact ih bs cs hab hbc)

instance : IsTotal String strLE :=
  ⟨fun a b => lexLeB_total a.toList b.toList⟩

instance : IsTrans String strLE :=
  ⟨fun a b c => lexLeB_trans a.toList b.toList c.toList⟩

/-- Go's `sort.Strings`: sort in lexicographic order. -/
def sortStrings (l : List String) : List String :=
  l.insertionSort strLE

/-! ## Go's `net.ParseIP`, `IP.To4`, `IP.Mask` and `IP.String`

`net.ParseIP` (Go ≥ 1.18) scans for the first `.` or `:` to pick the IPv4 or
IPv6 grammar (`netip.ParseAddr`), rejects zoned addresses, and returns the
16-byte form (`As16`), so IPv4 addresses come back IPv4-in-IPv6-mapped.
Addresses are modelled as their byte lists. -/

/-- Decimal digit test. -/
def isDig (c : Char) : Bool := decide (48 ≤ c.toNat ∧ c.toNat ≤ 57)

/-- Value of a hexadecimal digit, `none` on a non-hex character. -/
def hexVal (c : Char) : Option Nat :=
  if 48 ≤ c.toNat ∧ c.toNat ≤ 57 then some (c.toNat - 48)
  else if 97 ≤ c.toNat ∧ c.toNat ≤ 102 then some (c.toNat - 87)
  else if 65 ≤ c.toNat ∧ c.toNat ≤ 70 then some (c.toNat - 55)
  else none

/-- One decimal octet of an IPv4 address (`netip.parseIPv4Fields`): at least
one digit, no leading zero, value at most 255; returns the value and the
unconsumed rest. -/
def parseV4Field (cs : List Char) : Option (Nat × List Char) :=
  match cs.takeWhile isDig, cs.dropWhile isDig with
  | [], _ => none
  | ds, rest =>
    if 1 < ds.length ∧ ds.headD ' ' = '0' then none
    else
      let v := ds.foldl (fun a c => a * 10 + (c.toNat - 48)) 0
      if 255 < v then none else some (v, rest)

/-- The whole-string parse `netip.parseIPv4`: exactly four dot-separated octets consuming the whole
input, yielding the 4 bytes. -/
def parseIPv4Core (cs : List Char) : Option (List Nat) := do
  let (f1, r1) ← parseV4Field cs
  match r1 with
  | '.' :: r1' => do
    let (f2, r2) ← parseV4Field r1'
    match r2 with
    | '.' :: r2' => do
      let (f3, r3) ← parseV4Field r2'
      match r3 with
      | '.' :: r3' => do
        let (f4, r4) ← parseV4Field r3'
        if r4.isEmpty then some [f1, f2, f3, f4] else none
      | _ => none
    | _ => none
  | _ => none

/-- The IPv4-in-IPv6 mapping `netip.Addr.As16` applies to an IPv4 address
(`::ffff:a.b.c.d`). -/
def v4mapped (b : List Nat) : List Nat :=
  [0, 0, 0, 0, 0, 0, 0, 0, 0, 0, 255, 255] ++ b

/-- The inlined hex-group scanner of `netip.parseIPv6`: accumulate hex
digits, failing (`none`) as soon as the accumulator exceeds `0xFFFF`;
returns the value, the number of digits consumed and the rest. -/
def parseHexChunk : List Char → Nat → Nat → Option (Nat × Nat × List Char)
  | [], acc, cnt => some (acc, cnt, [])
  | c :: rest, acc, cnt =>
    match hexVal c with
    | some d =>
      if 65535 < acc * 16 + d then none
      else parseHexChunk rest (acc * 16 + d) (cnt + 1)
    | none => some (acc, cnt, c :: rest)

/-- The main loop of `netip.parseIPv6`.  `acc` is the byte prefix built so
far (Go's `ip[:i]`), `ell` the recorded `::` position.  The loop runs while
`i < 16`, i.e. at most 8 rounds from an empty prefix, which the fuel
argument mirrors exactly (every round past this base case appends two
bytes).  Returns the bytes and the ellipsis position for fix-up. -/
def parseV6Loop : Nat → List Char → Option Nat → List Nat → Option (List Nat × Option Nat)
  | 0, cs, ell, acc => if cs.isEmpty then some (acc, ell) else none
  | fuel + 1, cs, ell, acc =>
    match parseHexChunk cs 0 0 with
    | none => none
    | some (v, cnt, rest) =>
      if cnt = 0 then none
      else
        match rest with
        | '.' :: _ =>
          if ell.isNone ∧ acc.length ≠ 12 then none
          else if 16 < acc.length + 4 then none
          else
            match parseIPv4Core cs with
            | some b4 => some (acc ++ b4, ell)
            | none => none
        | [] => some (acc ++ [v / 256, v % 256], ell)
        | ':' :: rest2 =>
          match rest2 with
          | [] => none
          | ':' :: rest3 =>
            if ell.isSome then none
            else if rest3.isEmpty then some (acc ++ [v / 256, v % 256], some (acc.length + 2))
            else parseV6Loop fuel rest3 (some (acc.length + 2)) (acc ++ [v / 256, v % 256])
          | _ => parseV6Loop fuel rest2 ell (acc ++ [v / 256, v % 256])
        | _ => none

/-- The post-loop fix-up of `netip.parseIPv6`: a short address needs a `::`
to expand into the missing zero bytes, a full one must not have used `::`
(it has to stand for at least one zero group). -/
def v6Fixup : Option (List Nat × Option Nat) → Option (List Nat)
  | none => none
  | some (bytes, ell) =>
    if bytes.length < 16 then
      match ell with
      | none => none
      | some e =>
        some (bytes.take e ++ List.replicate (16 - bytes.length) 0 ++ bytes.drop e)
    else
      match ell with
      | some _ => none
      | none => some bytes

/-- The parse `netip.parseIPv6` on a character list (zoned addresses never reach here
as `%` is not a hex digit, matching `net.ParseIP`'s rejection of zones). -/
def parseIPv6Core (cs : List Char) : Option (List Nat) :=
  match cs with
  | ':' :: ':' :: rest =>
    if rest.isEmpty then some (List.replicate 16 0)
    else v6Fixup (parseV6Loop 8 rest (some 0) [])
  | _ => v6Fixup (parseV6Loop 8 cs none [])

/-- Go's `net.ParseIP`: dispatch on the first `.` or `:` of the string; the
result is the 16-byte form, `none` when the string is not a valid address. -/
def parseIP (s : String) : Option (List Nat) :=
  match s.toList.dropWhile (fun c => !(c == '.' || c == ':')) with
  | '.' :: _ => (parseIPv4Core s.toList).map v4mapped
  | ':' :: _ => parseIPv6Core s.toList
  | _ => none

/-- The test `IP.To4 != nil` on a 16-byte address: the IPv4-in-IPv6 test of Go's
`To4` (ten zero bytes then `0xff 0xff`). -/
def isV4mapped (b : List Nat) : Bool :=
  b.take 12 == [0, 0, 0, 0, 0, 0, 0, 0, 0, 0, 255, 255]

/-- Decimal rendering of a byte (Go's `itoa` inside `IP.String`). -/
def decStr (n : Nat) : String := String.mk (Nat.toDigits 10 n)

/-- Lowercase hex rendering of a 16-bit group without leading zeros (Go's
`appendHex` inside `IP.String`). -/
def hexStr (n : Nat) : String := String.mk (Nat.toDigits 16 n)

/-- Dotted-quad rendering of 4 bytes. -/
def v4Str : List Nat → String
  | [a, b, c, d] => decStr a ++ "." ++ decStr b ++ "." ++ decStr c ++ "." ++ decStr d
  | _ => ""

/-- The 16-bit groups of a 16-byte address. -/
def groupsOf : List Nat → List Nat
  | a :: b :: rest => (a * 256 + b) :: groupsOf rest
  | _ => []

/-- Length of the leading run of zero groups. -/
def leadZeroCount : List Nat → Nat
  | 0 :: rest => 1 + leadZeroCount rest
  | _ => 0

/-- Scan for the first strictly-longest run of zero groups (Go's `e0`/`e1`
search in `IP.String`): a later run only wins when strictly longer. -/
def bestZeroRunFrom : List Nat → Nat → Nat × Nat → Nat × Nat
  | [], _, best => best
  | g :: rest, idx, best =>
    let zl := if g = 0 then 1 + leadZeroCount rest else 0
    bestZeroRunFrom rest (idx + 1) (if best.2 < zl then (idx, zl) else best)

/-- The IPv6 rendering of `IP.String`: hex groups joined by `:`, with the
first longest run of at least two zero groups compressed to `::`. -/
def v6Str (b : List Nat) : String :=
  let gs := groupsOf b
  let best := bestZeroRunFrom gs 0 (0, 0)
  if best.2 ≤ 1 then String.intercalate ":" (gs.map hexStr)
  else
    String.intercalate ":" ((gs.take best.1).map hexStr) ++ "::" ++
      String.intercalate ":" ((gs.drop (best.1 + best.2)).map hexStr)

/-- Go's `IP.String` on the byte forms that occur here: a 4-byte address or an
IPv4-mapped 16-byte address prints dotted-quad, other 16-byte addresses
print as IPv6. -/
def ipString (b : List Nat) : String :=
  if b.length = 4 then v4Str b
  else if isV4mapped b then v4Str (b.drop 12)
  else v6Str b

/-- The masking `ip.Mask(net.CIDRMask(24, 32))` on an IPv4-mapped 16-byte address:
Go's `Mask` drops to the 4-byte form and zeroes the last octet. -/
def mask24 (b : List Nat) : List Nat :=
  match b.drop 12 with
  | [x, y, z, _] => [x, y, z, 0]
  | _ => []

/-- The masking `ip.Mask(net.CIDRMask(64, 128))` on a 16-byte address: keep the top 8
bytes, zero the rest. -/
def mask64 (b : List Nat) : List Nat :=
  b.take 8 ++ List.replicate 8 0

/-- The subnet-statistics key computed in `extractIPs` (search.go lines
276-287): `/24`-masked dotted quad for IPv4 values, `/64`-masked IPv6
rendering otherwise. -/
def subnetKey (b : List Nat) : String :=
  if isV4mapped b then ipString (mask24 b) ++ "/24"
  else ipString (mask64 b) ++ "/64"

/-! ## The extraction engine of `cmd/search.go`

`extractSubdomains` (lines 222-257) collects non-empty `Subdomain` fields
into a Go map and writes `for sub := range subdomains` — Go map iteration
order, which the language specifies as unordered.  The deterministic content
of that map is `subdomainKeys`; a possible file content is any permutation
of it.

`extractIPs` (lines 259-355) collects `Value` fields accepted by
`net.ParseIP` into a map, accumulates per-subnet counts while inserting, and
writes both the IP list and the stats keys through `sort.Strings`, so those
outputs are deterministic. -/

/-- The key set of the `subdomains` map built by `extractSubdomains`: every
non-empty `Subdomain` field of the selected record list, one entry per
distinct value. -/
def subdomainKeys (sd : SearchData) : List String :=
  (((recordsOf sd).map Record.subdomain).filter (fun s => s != "")).dedup

/-- The possible line sequences `extractSubdomains` can write: Go map
iteration order is unspecified, so exactly the permutations of the key
set. -/
def SubdomainOutput (sd : SearchData) (out : List String) : Prop :=
  out.Perm (subdomainKeys sd)

/-- The `Value` fields of the selected records that `net.ParseIP` accepts,
in record order (search.go line 272). -/
def ipValues (sd : SearchData) : List String :=
  ((recordsOf sd).map Record.value).filter (fun v => (parseIP v).isSome)

/-- The key set of the `ips` map of `extractIPs`: the distinct accepted
values. -/
def uniqueIPs (sd : SearchData) : List String :=
  (ipValues sd).dedup

/-- The subnet-statistics key of one accepted value string. -/
def keyOfValue (v : String) : String :=
  match parseIP v with
  | some b => subnetKey b
  | none => ""

/-- The sorted unique IP list `extractIPs` writes to the IP file. -/
def sortedIPList (sd : SearchData) : List String :=
  sortStrings (uniqueIPs sd)

/-- The key set of the `subnetStats` map: one key per distinct subnet of a
unique accepted value. -/
def statKeys (sd : SearchData) : List String :=
  ((uniqueIPs sd).map keyOfValue).dedup

/-- The sorted subnet-statistics lines `extractIPs` writes to the stats
file, as key/count pairs: `subnetStats[subnet]++` runs once per unique
accepted value, so each key maps to the number of distinct extracted IPs in
that subnet. -/
def ipStats (sd : SearchData) : List (String × Nat) :=
  (sortStrings (statKeys sd)).map
    (fun k => (k, ((uniqueIPs sd).filter (fun v => keyOfValue v == k)).length))

/-- Both outputs of `extractIPs`. -/
def extractIPsOut (sd : SearchData) : List String × List (String × Nat) :=
  (sortedIPList sd, ipStats sd)

/-! ## `filepath.Clean`, `filepath.Join` and `unzip` (`cmd/export.go`) -/

/-- Element-wise core of Go's `path/filepath.Clean` on `/`-separated paths:
empty and `.` elements vanish, `..` pops a previous element, a `..` that
cannot pop is kept for relative paths and dropped for rooted ones. -/
def cleanElems (rooted : Bool) : List String → List String → List String
  | [], out => out
  | e :: rest, out =>
    if e = "" ∨ e = "." then cleanElems rooted rest out
    else if e = ".." then
      match out.getLast? with
      | some last =>
        if last = ".." then cleanElems rooted rest (out ++ [".."])
        else cleanElems rooted rest out.dropLast
      | none =>
        if rooted then cleanElems rooted rest out
        else cleanElems rooted rest [".."]
    else cleanElems rooted rest (out ++ [e])

/-- Splitting a character list at `/` (what `strings.Split(p, "/")`
produces on the path). -/
def splitSlash : List Char → List Char → List String
  | [], cur => [String.mk cur.reverse]
  | '/' :: rest, cur => String.mk cur.reverse :: splitSlash rest []
  | c :: rest, cur => splitSlash rest (c :: cur)

/-- Go's `path/filepath.Clean` for the Unix separator. -/
def cleanPath (p : String) : String :=
  if p = "" then "."
  else
    let rooted := p.toList.headD ' ' = '/'
    let elems := cleanElems rooted (splitSlash p.toList []) []
    let joined := String.intercalate "/" elems
    if rooted then "/" ++ joined
    else if joined = "" then "."
    else joined

/-- Go's `path/filepath.Join` of two components: empty components are
dropped, the rest are joined with `/` and cleaned. -/
def joinPath (a b : String) : String :=
  if a = "" ∧ b = "" then ""
  else if a = "" then cleanPath b
  else if b = "" then cleanPath a
  else cleanPath (a ++ "/" ++ b)

/-- Prefix test on strings by character list (Go's `strings.HasPrefix`). -/
def hasPref (p s : String) : Bool :=
  p.toList.isPrefixOf s.toList

/-- The ZipSlip guard of `unzip` (export.go line 243): the joined and
cleaned destination of an entry must keep `Clean(destDir) + "/"` as a
prefix. -/
def insideDest (destDir fpath : String) : Bool :=
  hasPref (cleanPath destDir ++ "/") fpath

/-- One archive entry: its name, whether it is a directory, and the bytes
it would write. -/
structure ZipEntry where
  name : String
  isDir : Bool
  content : String
deriving DecidableEq, Repr

instance {ε α : Type} [DecidableEq ε] [DecidableEq α] : DecidableEq (Except ε α) :=
  fun a b =>
    match a, b with
    | .error x, .error y => decidable_of_iff (x = y) (by simp)
    | .error _, .ok _ => isFalse (by simp)
    | .ok _, .error _ => isFalse (by simp)
    | .ok x, .ok y => decidable_of_iff (x = y) (by simp)

/-- Result of a run of `unzip`: either the extracted paths or the error
message, together with the file writes (path, bytes) performed before
returning. -/
structure UnzipRun where
  result : Except String (List String)
  writes : List (String × String)
deriving DecidableEq, Repr

/-- The entry loop of `unzip` (export.go lines 238-277): join the entry
name onto the destination directory, reject the entry (returning
immediately, before anything is written for it) when the ZipSlip guard
fails, create directories without writing bytes, and copy file bytes
otherwise. -/
def unzipLoop (destDir : String) : List ZipEntry → List String → List (String × String) → UnzipRun
  | [], paths, writes => ⟨.ok paths, writes⟩
  | e :: rest, paths, writes =>
    let fpath := joinPath destDir e.name
    if ¬ insideDest destDir fpath then
      ⟨.error ("illegal file path: " ++ fpath), writes⟩
    else if e.isDir then unzipLoop destDir rest (paths ++ [fpath]) writes
    else unzipLoop destDir rest (paths ++ [fpath]) (writes ++ [(fpath, e.content)])

/-- The call `unzip(src, destDir)` on the entry list of the archive. -/
def unzip (entries : List ZipEntry) (destDir : String) : UnzipRun :=
  unzipLoop destDir entries [] []

/-! ## `parseCSV` (`cmd/export.go` lines 282-359) -/

/-- The header-token test of `parseCSV`: the first row is data iff no cell,
lower-cased, equals one of the literal tokens. -/
def firstRowIsData (header : List String) : Bool :=
  !(header.any (fun h =>
    lowerStr h == "subdomain" || lowerStr h == "type" ||
      lowerStr h == "value" || lowerStr h == "date"))

/-- Positional mapping of one CSV row with the default column order
`{subdomain, value, type, date}` (indices 0, 1, 2, 3); short rows leave the
missing fields empty. -/
def recordOfRow (row : List String) : Record :=
  { subdomain := row.getD 0 "", value := row.getD 1 "",
    type := row.getD 2 "", date := row.getD 3 "", timestamp := "" }

/-- The body of `parseCSV` after `csv.ReadAll`: fewer than two rows parse to no records
(and no error); otherwise the first row is included as data exactly when it
carries no header token, and every later row is mapped positionally. -/
def parseCSV (rows : List (List String)) : List Record :=
  if rows.length < 2 then []
  else
    match rows with
    | [] => []
    | header :: rest =>
      (if firstRowIsData header then [recordOfRow header] else []) ++ rest.map recordOfRow

/-! ## Claims -/

/-- An envelope with the good status `200` whose `message` is absent and
whose `data` is a JSON boolean: neither `SearchData` nor string decoding of
`data` applies. -/
def c1Bad : Envelope :=
  { status := .jnum 200, msg := "m", message := none, data := some (.jbool true) }

/-- C1, counterexample: the claim says the decoder reports success *iff*
the status field is `200`/`"200"`/`"ok"`.  The envelope `c1Bad` has status
exactly the number 200, yet `Client.Search` returns the
`"failed to parse data"` error, not success: the "if" direction of the
claimed equivalence is false. -/
theorem c1_claim_false :
    c1Bad.status = .jnum 200 ∧ searchDecode c1Bad = .parseFailure := by
  constructor
  · rfl
  · decide

/-- C1, amended: the status check passes exactly on the number 200 and the
strings `"200"` and `"ok"` (case-sensitive); every other status value makes
both decoders return an `APIError` carrying the envelope's `msg`; and a
successful decode can only happen when the status check passed (success is
not guaranteed by a good status alone, as the decode of the payload can
still fail). -/
theorem c1_status_normalization (e : Envelope) :
    (statusOK e.status = true ↔
      (e.status = .jnum 200 ∨ e.status = .jstr "200" ∨ e.status = .jstr "ok"))
    ∧ (statusOK e.status = false →
        searchDecode e = .apiError e.msg ∧ advancedQueryDecode e = .apiError e.msg)
    ∧ (∀ sd, searchDecode e = .ok sd → statusOK e.status = true)
    ∧ (∀ sd, advancedQueryDecode e = .ok sd → statusOK e.status = true) := by
  refine ⟨?_, ?_, ?_, ?_⟩
  · cases h : e.status <;> simp [statusOK, beq_iff_eq]
  · intro hf
    constructor <;> simp [searchDecode, advancedQueryDecode, hf]
  · intro sd hok
    cases hb : statusOK e.status with
    | true => rfl
    | false =>
      rw [(show searchDecode e = .apiError e.msg by simp [searchDecode, hb])] at hok
      exact absurd hok (by simp)
  · intro sd hok
    cases hb : statusOK e.status with
    | true => rfl
    | false =>
      rw [(show advancedQueryDecode e = .apiError e.msg by simp [advancedQueryDecode, hb])] at hok
      exact absurd hok (by simp)

/-- C1, witness: a rejected status value propagates the `msg` field. -/
theorem c1_status_normalization_witness :
    searchDecode { status := .jstr "bad", msg := "oops", message := none, data := none }
      = .apiError "oops" :=
  ((c1_status_normalization
    { status := .jstr "bad", msg := "oops", message := none, data := none }).2.1 (by decide)).1

/-- C2: whenever the status check passes and the `message` sub-document
decodes to a `SearchData` that the acceptance check approves, both decoders
return exactly that record set — whatever `data` holds (the envelope, and
with it the `data` sub-document, is arbitrary here, so `data` is never the
record source in this situation even when it would decode successfully). -/
theorem c2_message_preferred (e : Envelope) (mj : Json) (sd : SearchData)
    (hs : statusOK e.status = true) (hm : e.message = some mj)
    (hd : decodeSearchData mj = some sd) (hv : validSearchData sd = true) :
    searchDecode e = .ok sd ∧ advancedQueryDecode e = .ok sd := by
  constructor <;> simp [searchDecode, advancedQueryDecode, hs, hm, hd, hv]

/-- An envelope whose `message` and `data` sub-documents both decode to
valid record sets, with different records. -/
def c2Env : Envelope :=
  { status := .jnum 200, msg := "ok",
    message := some (.jobj [("data",
      .jarr [.jobj [("subdomain", .jstr "m.example"), ("value", .jstr "1.1.1.1")]])]),
    data := some (.jobj [("data",
      .jarr [.jobj [("subdomain", .jstr "d.example"), ("value", .jstr "2.2.2.2")]])]) }

/-- C2, witness: on `c2Env` the decoders return the record decoded from
`message` (`m.example`), not the one from `data` (`d.example`), although
`data` decodes successfully as well. -/
theorem c2_message_preferred_witness :
    searchDecode c2Env = .ok { data := [{ subdomain := "m.example", value := "1.1.1.1" }] }
    ∧ advancedQueryDecode c2Env
        = .ok { data := [{ subdomain := "m.example", value := "1.1.1.1" }] } :=
  c2_message_preferred c2Env
    (.jobj [("data", .jarr [.jobj [("subdomain", .jstr "m.example"), ("value", .jstr "1.1.1.1")]])])
    { data := [{ subdomain := "m.example", value := "1.1.1.1" }] }
    (by decide) rfl (by decide) (by decide)

/-- The `message` sub-document of an envelope is rejected: it is absent,
fails to decode, or decodes to a record set that the acceptance check
refuses. -/
def messageRejected (e : Envelope) : Bool :=
  match e.message with
  | none => true
  | some mj =>
    match decodeSearchData mj with
    | none => true
    | some sd => !validSearchData sd

/-- C3: for an advanced-query envelope with a passing status whose
`message` is absent or rejected and whose `data` is a bare JSON string,
the string `"ok"` produces the empty success record set
(`Status: "ok"`, no records, no error), and any other string produces the
`APIDataMessage` error carrying it. -/
theorem c3_bare_string_data (e : Envelope) (s : String)
    (hs : statusOK e.status = true) (hm : messageRejected e = true)
    (hd : e.data = some (.jstr s)) :
    (s = "ok" → advancedQueryDecode e = .ok { status := "ok", data := [] })
    ∧ (s ≠ "ok" → advancedQueryDecode e = .apiDataMessage s) := by
  have htd : tryDataQuery e
      = if s = "ok" then .ok { status := "ok", data := [] } else .apiDataMessage s := by
    simp [tryDataQuery, hd, decodeSearchData]
  have hmain : advancedQueryDecode e = tryDataQuery e := by
    unfold advancedQueryDecode
    cases hmsg : e.message with
    | none => simp [hs, hmsg]
    | some mj =>
      cases hdec : decodeSearchData mj with
      | none => simp [hs, hmsg, hdec]
      | some sdm =>
        have hv : validSearchData sdm = false := by
          have hm' : (match decodeSearchData mj with
              | none => true
              | some sd => !validSearchData sd) = true := by
            simpa [messageRejected, hmsg] using hm
          rw [hdec] at hm'
          simpa using hm'
        simp [hs, hmsg, hdec, hv]
  constructor <;> intro hcase <;> simp [hmain, htd, hcase]

/-- C3, witness: the two cases at concrete envelopes — bare `"ok"` in
`data` (with a rejected plain-string `message`) gives the empty success,
and a bare diagnostic string gives the data-message error. -/
theorem c3_bare_string_data_witness :
    advancedQueryDecode { status := .jstr "200", msg := "", message := some (.jstr "hello"),
                          data := some (.jstr "ok") }
      = .ok { status := "ok", data := [] }
    ∧ advancedQueryDecode { status := .jnum 200, msg := "", message := none,
                            data := some (.jstr "quota exceeded") }
      = .apiDataMessage "quota exceeded" :=
  ⟨(c3_bare_string_data _ "ok" (by decide) (by decide) rfl).1 rfl,
   (c3_bare_string_data _ "quota exceeded" (by decide) (by decide) rfl).2 (by decide)⟩

/-- One full page that keeps the loop going: the page is non-empty, the
accumulated total stays below the bound, and the page is not shorter than
`pageSize`, so the loop moves on to the next page. -/
theorem paginateLoop_continue (fetch : PageFetch) (pageSize maxR : Nat)
    (acc : List Record) (page reqs : Nat) (pd : SearchData)
    (hf : fetch page = .ok pd) (hne : (recordsOf pd).isEmpty = false)
    (hlt : (acc ++ recordsOf pd).length < maxR) (hfull : pageSize ≤ (recordsOf pd).length) :
    paginateLoop fetch pageSize maxR acc page reqs
      = paginateLoop fetch pageSize maxR (acc ++ recordsOf pd) (page + 1) (reqs + 1) := by
  have hlt' : ¬ maxR ≤ acc.length + (recordsOf pd).length := by
    rw [List.length_append] at hlt
    omega
  have hfull' : ¬ (recordsOf pd).length < pageSize := Nat.not_lt.mpr hfull
  rw [paginateLoop, hf]
  simp [hne, hlt', hfull']

/-- A page that pushes the accumulated total to the bound or beyond: the
result is trimmed to exactly `maxRecords` and the loop stops. -/
theorem paginateLoop_trim (fetch : PageFetch) (pageSize maxR : Nat)
    (acc : List Record) (page reqs : Nat) (pd : SearchData)
    (hf : fetch page = .ok pd) (hne : (recordsOf pd).isEmpty = false)
    (hge : maxR ≤ (acc ++ recordsOf pd).length) :
    paginateLoop fetch pageSize maxR acc page reqs
      = ⟨(acc ++ recordsOf pd).take maxR, reqs + 1, none⟩ := by
  have hge' : maxR ≤ acc.length + (recordsOf pd).length := by
    rw [List.length_append] at hge
    exact hge
  rw [paginateLoop, hf]
  simp [hne, hge']

/-- A non-empty page shorter than `pageSize` below the bound: the loop
keeps it and stops (the "last page" heuristic). -/
theorem paginateLoop_short (fetch : PageFetch) (pageSize maxR : Nat)
    (acc : List Record) (page reqs : Nat) (pd : SearchData)
    (hf : fetch page = .ok pd) (hne : (recordsOf pd).isEmpty = false)
    (hlt : (acc ++ recordsOf pd).length < maxR) (hshort : (recordsOf pd).length < pageSize) :
    paginateLoop fetch pageSize maxR acc page reqs
      = ⟨acc ++ recordsOf pd, reqs + 1, none⟩ := by
  have hlt' : ¬ maxR ≤ acc.length + (recordsOf pd).length := by
    rw [List.length_append] at hlt
    omega
  rw [paginateLoop, hf]
  simp [hne, hlt', hshort]

/-- The accumulated record list never exceeds the `--max` bound: every exit
of the loop returns at most `maxRecords` records when the accumulator
starts within the bound. -/
theorem paginateLoop_length_le (fetch : PageFetch) (pageSize maxR : Nat)
    (acc : List Record) (page reqs : Nat) (hacc : acc.length ≤ maxR) :
    (paginateLoop fetch pageSize maxR acc page reqs).records.length ≤ maxR := by
  revert hacc
  induction acc, page, reqs using paginateLoop.induct fetch pageSize maxR with
  | case1 acc page reqs e hf hemp =>
    intro hacc
    simp [paginateLoop, hf, hemp]
  | case2 acc page reqs e hf hemp =>
    intro hacc
    simpa [paginateLoop, hf, hemp] using hacc
  | case3 acc page reqs pd hf hpe =>
    intro hacc
    simpa [paginateLoop, hf, hpe] using hacc
  | case4 acc page reqs pd hf hpe hge =>
    intro hacc
    rw [paginateLoop_trim fetch pageSize maxR acc page reqs pd hf (by simpa using hpe) hge]
    simp [List.length_take]
  | case5 acc page reqs pd hf hpe hge hshort =>
    intro hacc
    rw [paginateLoop_short fetch pageSize maxR acc page reqs pd hf (by simpa using hpe)
      (Nat.not_le.mp hge) hshort]
    exact Nat.le_of_lt (Nat.not_le.mp hge)
  | case6 acc page reqs pd hf hpe hge hshort ih =>
    intro hacc
    rw [paginateLoop_continue fetch pageSize maxR acc page reqs pd hf (by simpa using hpe)
      (Nat.not_le.mp hge) (Nat.not_lt.mp hshort)]
    exact ih (Nat.le_of_lt (Nat.not_le.mp hge))

/-- A record with all fields empty (the zero `api.Record`). -/
def blankRecord : Record := {}

theorem isEmpty_false_of_length_ne_zero {α : Type} (l : List α) (h : l.length ≠ 0) :
    l.isEmpty = false := by
  cases l with
  | nil => simp at h
  | cons a t => rfl

/-- C4: three successful pages of 100, 100 and 43 records with
`pageSize = 100` and a `--max` bound above 243: the run returns the
concatenation of the three pages in arrival order (243 records), issues
exactly 3 requests, and stops because the third page was shorter than the
page size — no 4th fetch happens (nothing is assumed about `fetch` beyond
these three pages). -/
theorem c4_pagination (fetch : PageFetch) (p0 maxR : Nat) (sd1 sd2 sd3 : SearchData)
    (h1 : fetch p0 = .ok sd1) (h2 : fetch (p0 + 1) = .ok sd2) (h3 : fetch (p0 + 2) = .ok sd3)
    (l1 : (recordsOf sd1).length = 100) (l2 : (recordsOf sd2).length = 100)
    (l3 : (recordsOf sd3).length = 43) (hmax : 243 < maxR) :
    paginate fetch 100 maxR p0
      = ⟨recordsOf sd1 ++ recordsOf sd2 ++ recordsOf sd3, 3, none⟩ := by
  have e1 : (recordsOf sd1).isEmpty = false :=
    isEmpty_false_of_length_ne_zero _ (by simp [l1])
  have e2 : (recordsOf sd2).isEmpty = false :=
    isEmpty_false_of_length_ne_zero _ (by simp [l2])
  have e3 : (recordsOf sd3).isEmpty = false :=
    isEmpty_false_of_length_ne_zero _ (by simp [l3])
  unfold paginate
  rw [paginateLoop_continue fetch 100 maxR [] p0 0 sd1 h1 e1
    (by simp only [List.nil_append, l1]; omega) (by rw [l1])]
  rw [paginateLoop_continue fetch 100 maxR ([] ++ recordsOf sd1) (p0 + 1) 1 sd2 h2 e2
    (by simp only [List.length_append, List.nil_append, l1, l2]; omega) (by rw [l2])]
  rw [paginateLoop_short fetch 100 maxR (([] ++ recordsOf sd1) ++ recordsOf sd2) (p0 + 1 + 1) 2
    sd3 (by simpa [Nat.add_assoc] using h3) e3
    (by simp only [List.length_append, List.nil_append, l1, l2, l3]; omega)
    (by rw [l3]; omega)]
  simp

/-- A fetch oracle serving pages of 100, 100 and 43 empty records. -/
def c4Fetch : PageFetch := fun p =>
  if p = 1 then .ok { data := List.replicate 100 blankRecord }
  else if p = 2 then .ok { data := List.replicate 100 blankRecord }
  else if p = 3 then .ok { data := List.replicate 43 blankRecord }
  else .error "no more pages"

theorem recordsOf_data_only (rs : List Record) (h : rs.length ≠ 0) (t : Int) (st : String) :
    recordsOf { total := t, status := st, data := rs, result := [] } = rs := by
  unfold recordsOf
  rw [isEmpty_false_of_length_ne_zero rs h]
  simp

set_option maxRecDepth 4000 in
/-- C4, witness: the concrete `[100, 100, 43]` run returns 243 records in 3
requests with no error. -/
theorem c4_pagination_witness :
    paginate c4Fetch 100 10000 1
      = ⟨List.replicate 100 blankRecord ++ List.replicate 100 blankRecord
           ++ List.replicate 43 blankRecord, 3, none⟩
    ∧ (paginate c4Fetch 100 10000 1).records.length = 243
    ∧ (paginate c4Fetch 100 10000 1).requests = 3 := by
  have h := c4_pagination c4Fetch 1 10000
    { data := List.replicate 100 blankRecord } { data := List.replicate 100 blankRecord }
    { data := List.replicate 43 blankRecord }
    rfl rfl rfl (by decide) (by decide) (by decide) (by decide)
  rw [recordsOf_data_only _ (by simp), recordsOf_data_only _ (by simp)] at h
  refine ⟨h, ?_, ?_⟩
  · rw [h]
    simp
  · rw [h]

/-- C5: with `maxRecords = 150` and pages of exactly 100 records, the run
stops after exactly 2 requests with the 200 accumulated records truncated
to the first 150 in arrival order; moreover, every run returns at most
`maxRecords` records, and whenever a page pushes the accumulated count to
`maxRecords` or beyond, the loop returns exactly the first `maxRecords`
records and issues no further request. -/
theorem c5_max_truncation (fetch : PageFetch) (p0 : Nat) (sd1 sd2 : SearchData)
    (h1 : fetch p0 = .ok sd1) (h2 : fetch (p0 + 1) = .ok sd2)
    (l1 : (recordsOf sd1).length = 100) (l2 : (recordsOf sd2).length = 100) :
    (paginate fetch 100 150 p0 = ⟨(recordsOf sd1 ++ recordsOf sd2).take 150, 2, none⟩)
    ∧ (paginate fetch 100 150 p0).records.length = 150
    ∧ (∀ (g : PageFetch) (ps mr sp : Nat), (paginate g ps mr sp).records.length ≤ mr)
    ∧ (∀ (g : PageFetch) (ps mr : Nat) (acc : List Record) (page reqs : Nat) (pd : SearchData),
        g page = .ok pd → (recordsOf pd).isEmpty = false →
        mr ≤ (acc ++ recordsOf pd).length →
        paginateLoop g ps mr acc page reqs = ⟨(acc ++ recordsOf pd).take mr, reqs + 1, none⟩) := by
  have e1 : (recordsOf sd1).isEmpty = false :=
    isEmpty_false_of_length_ne_zero _ (by simp [l1])
  have e2 : (recordsOf sd2).isEmpty = false :=
    isEmpty_false_of_length_ne_zero _ (by simp [l2])
  have hrun : paginate fetch 100 150 p0
      = ⟨(recordsOf sd1 ++ recordsOf sd2).take 150, 2, none⟩ := by
    unfold paginate
    rw [paginateLoop_continue fetch 100 150 [] p0 0 sd1 h1 e1
      (by simp only [List.nil_append, l1]; omega) (by rw [l1])]
    rw [paginateLoop_trim fetch 100 150 ([] ++ recordsOf sd1) (p0 + 1) 1 sd2 h2 e2
      (by simp only [List.length_append, List.nil_append, l1, l2]; omega)]
    simp
  refine ⟨hrun, ?_, ?_, ?_⟩
  · rw [hrun]
    simp [List.length_take, List.length_append, l1, l2]
  · intro g ps mr sp
    exact paginateLoop_length_le g ps mr [] sp 0 (by simp)
  · intro g ps mr acc page reqs pd hf hne hge
    exact paginateLoop_trim g ps mr acc page reqs pd hf hne hge

/-- A fetch oracle serving a page of 100 empty records for every page
index. -/
def c5Fetch : PageFetch := fun _ => .ok { data := List.replicate 100 blankRecord }

/-- C5, witness: the concrete endless-100s run with `--max 150` issues 2
requests and returns exactly 150 records. -/
theorem c5_max_truncation_witness :
    paginate c5Fetch 100 150 1
      = ⟨(List.replicate 100 blankRecord ++ List.replicate 100 blankRecord).take 150, 2, none⟩
    ∧ (paginate c5Fetch 100 150 1).records.length = 150 := by
  have h := c5_max_truncation c5Fetch 1
    { data := List.replicate 100 blankRecord } { data := List.replicate 100 blankRecord }
    rfl rfl (by decide) (by decide)
  exact ⟨h.1, h.2.1⟩

/-- A record set with two distinct non-empty subdomains (`"b"` before
`"a"`), a repetition and an empty subdomain. -/
def c6Sd : SearchData :=
  { data := [{ subdomain := "b" }, { subdomain := "a" },
             { subdomain := "b" }, { subdomain := "" }] }

/-- C6, counterexample: the claim says the subdomain file is written in
lexicographically sorted order.  `extractSubdomains` iterates the
`subdomains` map with `range` and never sorts, so the unsorted line order
`["b", "a"]` is a possible output for `c6Sd` — and it is not sorted. -/
theorem c6_claim_false :
    SubdomainOutput c6Sd ["b", "a"] ∧ ¬ List.Sorted strLE ["b", "a"] := by
  constructor
  · unfold SubdomainOutput
    decide
  · decide

/-- C6, amended: every possible output of `extractSubdomains` contains
exactly the distinct non-empty `subdomain` fields of the record set, each
exactly once — but in an unspecified order (Go map iteration), not
necessarily sorted. -/
theorem c6_subdomain_extraction (sd : SearchData) (out : List String)
    (h : SubdomainOutput sd out) :
    out.Nodup ∧ ∀ s, s ∈ out ↔ s ≠ "" ∧ ∃ r ∈ recordsOf sd, r.subdomain = s := by
  constructor
  · exact h.nodup_iff.mpr (List.nodup_dedup _)
  · intro s
    rw [h.mem_iff]
    unfold subdomainKeys
    rw [List.mem_dedup, List.mem_filter]
    simp only [List.mem_map, bne_iff_ne, ne_eq]
    constructor
    · rintro ⟨⟨r, hr, hv⟩, hne⟩
      exact ⟨hne, r, hr, hv⟩
    · rintro ⟨hne, r, hr, hv⟩
      exact ⟨⟨r, hr, hv⟩, hne⟩

/-- C6, witness: the amended description evaluated on `c6Sd` with the
possible output `["b", "a"]`. -/
theorem c6_subdomain_extraction_witness :
    (["b", "a"] : List String).Nodup
    ∧ ∀ s, s ∈ (["b", "a"] : List String) ↔ s ≠ "" ∧ ∃ r ∈ recordsOf c6Sd, r.subdomain = s :=
  c6_subdomain_extraction c6Sd ["b", "a"] (by unfold SubdomainOutput; decide)

theorem filter_length_sortStrings (u : List String) (q : String → Bool) :
    ((sortStrings u).filter q).length = (u.filter q).length := by
  rw [← List.countP_eq_length_filter, ← List.countP_eq_length_filter]
  exact (List.perm_insertionSort strLE u).countP_eq q

/-- The record set of the spec's IP-extraction example: values
`["1.2.3.4", "1.2.3.5", "1.2.3.4", "::1"]`. -/
def c7Sd : SearchData :=
  { data := [{ value := "1.2.3.4" }, { value := "1.2.3.5" },
             { value := "1.2.3.4" }, { value := "::1" }] }

/-- C7: for every record set, the IP file holds exactly the distinct record
`value` fields accepted by `net.ParseIP`, lexicographically sorted; the
stats file holds one line per distinct masked subnet (`/24` for IPv4, `/64`
for IPv6) of those unique IPs, keys sorted, each counting the distinct
extracted IPs in that subnet; and the spec's example evaluates to the
claimed lists. -/
theorem c7_ip_extraction :
    (∀ sd : SearchData,
      List.Sorted strLE (extractIPsOut sd).1
      ∧ (extractIPsOut sd).1.Nodup
      ∧ (∀ v, v ∈ (extractIPsOut sd).1 ↔
          (∃ r ∈ recordsOf sd, r.value = v) ∧ (parseIP v).isSome = true)
      ∧ List.Sorted strLE ((extractIPsOut sd).2.map Prod.fst)
      ∧ ((extractIPsOut sd).2.map Prod.fst).Nodup
      ∧ (∀ p, p ∈ (extractIPsOut sd).2 →
          p.2 = ((extractIPsOut sd).1.filter (fun v => keyOfValue v == p.1)).length)
      ∧ (∀ k, k ∈ (extractIPsOut sd).2.map Prod.fst ↔
          ∃ v ∈ (extractIPsOut sd).1, keyOfValue v = k))
    ∧ extractIPsOut c7Sd
      = (["1.2.3.4", "1.2.3.5", "::1"], [("1.2.3.0/24", 2), ("::/64", 1)]) := by
  constructor
  · intro sd
    have hk : (ipStats sd).map Prod.fst = sortStrings (statKeys sd) := by
      unfold ipStats
      rw [List.map_map]
      exact List.map_id (sortStrings (statKeys sd))
    refine ⟨?_, ?_, ?_, ?_, ?_, ?_, ?_⟩
    · exact List.sorted_insertionSort strLE (uniqueIPs sd)
    · exact (List.perm_insertionSort strLE (uniqueIPs sd)).nodup_iff.mpr
        (List.nodup_dedup (ipValues sd))
    · intro v
      have hmem : v ∈ (extractIPsOut sd).1 ↔ v ∈ uniqueIPs sd :=
        (List.perm_insertionSort strLE (uniqueIPs sd)).mem_iff
      rw [hmem]
      unfold uniqueIPs ipValues
      rw [List.mem_dedup, List.mem_filter]
      simp only [List.mem_map]
    · rw [(show (extractIPsOut sd).2 = ipStats sd from rfl), hk]
      exact List.sorted_insertionSort strLE (statKeys sd)
    · rw [(show (extractIPsOut sd).2 = ipStats sd from rfl), hk]
      exact (List.perm_insertionSort strLE (statKeys sd)).nodup_iff.mpr
        (List.nodup_dedup _)
    · intro p hp
      have hp' : p ∈ (sortStrings (statKeys sd)).map
          (fun k => (k, ((uniqueIPs sd).filter (fun v => keyOfValue v == k)).length)) := hp
      rw [List.mem_map] at hp'
      rcases hp' with ⟨k, hkm, rfl⟩
      exact (filter_length_sortStrings (uniqueIPs sd) (fun v => keyOfValue v == k)).symm
    · intro k
      have hmemk : k ∈ sortStrings (statKeys sd) ↔ k ∈ statKeys sd :=
        (List.perm_insertionSort strLE (statKeys sd)).mem_iff
      rw [(show (extractIPsOut sd).2 = ipStats sd from rfl), hk, hmemk]
      unfold statKeys
      rw [List.mem_dedup, List.mem_map]
      constructor
      · rintro ⟨v, hv, rfl⟩
        exact ⟨v, (List.perm_insertionSort strLE (uniqueIPs sd)).mem_iff.mpr hv, rfl⟩
      · rintro ⟨v, hv, rfl⟩
        exact ⟨v, (List.perm_insertionSort strLE (uniqueIPs sd)).mem_iff.mp hv, rfl⟩
  · decide

/-- C7, witness: the count conjunct of the theorem, discharged at the
sample record set and its `/24` stats line — two distinct IPs fall into
`1.2.3.0/24`. -/
theorem c7_ip_extraction_witness :
    (("1.2.3.0/24", 2) : String × Nat).2
      = ((extractIPsOut c7Sd).1.filter (fun v => keyOfValue v == "1.2.3.0/24")).length :=
  (c7_ip_extraction.1 c7Sd).2.2.2.2.2.1 ("1.2.3.0/24", 2) (by decide)

/-- Every file write performed by the `unzip` loop targets a path inside
the destination directory: the ZipSlip guard runs before any byte is
written for an entry. -/
theorem unzipLoop_writes_inside (destDir : String) :
    ∀ (entries : List ZipEntry) (paths : List String) (writes : List (String × String)),
      (∀ w ∈ writes, insideDest destDir w.1 = true) →
      ∀ w ∈ (unzipLoop destDir entries paths writes).writes, insideDest destDir w.1 = true := by
  intro entries
  induction entries with
  | nil =>
    intro paths writes hw
    simpa [unzipLoop] using hw
  | cons a rest ih =>
    intro paths writes hw
    unfold unzipLoop
    cases hin : insideDest destDir (joinPath destDir a.name) with
    | false =>
      simp only [hin, Bool.false_eq_true, not_false_iff, if_true]
      exact hw
    | true =>
      cases hd : a.isDir with
      | true =>
        simp only [hin, hd, not_true, if_false, if_true]
        exact ih _ _ hw
      | false =>
        simp only [hin, hd, not_true, if_false]
        refine ih _ _ ?_
        intro w hwmem
        rcases List.mem_append.mp hwmem with h1 | h2
        · exact hw w h1
        · rcases List.mem_singleton.mp h2 with rfl
          exact hin

/-- As soon as some entry of the archive fails the ZipSlip guard, the whole
extraction returns an error. -/
theorem unzipLoop_error_of_bad (destDir : String) :
    ∀ (entries : List ZipEntry) (paths : List String) (writes : List (String × String))
      (e : ZipEntry), e ∈ entries →
      insideDest destDir (joinPath destDir e.name) = false →
      ∃ m, (unzipLoop destDir entries paths writes).result = .error m := by
  intro entries
  induction entries with
  | nil =>
    intro _ _ e he _
    exact absurd he (List.not_mem_nil e)
  | cons a rest ih =>
    intro paths writes e he hbad
    rcases List.mem_cons.mp he with rfl | hmem
    · refine ⟨"illegal file path: " ++ joinPath destDir e.name, ?_⟩
      unfold unzipLoop
      simp [hbad]
    · unfold unzipLoop
      cases hin : insideDest destDir (joinPath destDir a.name) with
      | false =>
        simp only [hin, Bool.false_eq_true, not_false_iff, if_true]
        exact ⟨_, rfl⟩
      | true =>
        cases hd : a.isDir with
        | true =>
          simp only [hin, hd, not_true, if_false, if_true]
          exact ih _ _ e hmem hbad
        | false =>
          simp only [hin, hd, not_true, if_false]
          exact ih _ _ e hmem hbad

/-- C8: any archive entry whose joined-and-cleaned destination fails the
ZipSlip prefix guard makes `unzip` return an error, and no bytes are ever
written to that entry's resolved path during the run. -/
theorem c8_zipslip (entries : List ZipEntry) (destDir : String) (e : ZipEntry)
    (he : e ∈ entries)
    (hbad : insideDest destDir (joinPath destDir e.name) = false) :
    (∃ m, (unzip entries destDir).result = .error m)
    ∧ joinPath destDir e.name ∉ (unzip entries destDir).writes.map Prod.fst := by
  constructor
  · exact unzipLoop_error_of_bad destDir entries [] [] e he hbad
  · intro hmem
    rw [List.mem_map] at hmem
    rcases hmem with ⟨w, hw, hweq⟩
    have hin := unzipLoop_writes_inside destDir entries [] [] (by simp) w hw
    rw [hweq, hbad] at hin
    exact absurd hin (by decide)

/-- C8, witness: the archive containing the single entry `"../evil.txt"`
extracted to `"result"` — the resolved path `"evil.txt"` escapes, the run
errors, and nothing at all is written. -/
theorem c8_zipslip_witness :
    (∃ m, (unzip [⟨"../evil.txt", false, "x"⟩] "result").result = .error m)
    ∧ joinPath "result" "../evil.txt"
        ∉ (unzip [⟨"../evil.txt", false, "x"⟩] "result").writes.map Prod.fst
    ∧ (unzip [⟨"../evil.txt", false, "x"⟩] "result").writes = [] := by
  have h := c8_zipslip [⟨"../evil.txt", false, "x"⟩] "result" ⟨"../evil.txt", false, "x"⟩
    (by decide) (by decide)
  exact ⟨h.1, h.2, by decide⟩

/-- C9, counterexample: the claim's own sample first row
`["example.com", "A", "1.1.1.1", "2024-01-01"]` carries no header token,
yet a CSV consisting of exactly that row parses to no records at all — the
`< 2`-rows guard of `parseCSV` drops it, so the claim fails on one-row
inputs. -/
theorem c9_claim_false :
    firstRowIsData ["example.com", "A", "1.1.1.1", "2024-01-01"] = true
    ∧ parseCSV [["example.com", "A", "1.1.1.1", "2024-01-01"]] = [] := by
  decide

/-- C9, amended: for a CSV input of at least two rows whose first row
carries no header token (no cell lower-cases to `subdomain`, `type`,
`value` or `date`), the first row is kept as data and every row is mapped
positionally with the default column order
`{subdomain, value, type, date}`. -/
theorem c9_header_sniffing (header : List String) (rest : List (List String))
    (hrest : rest ≠ []) (hdata : firstRowIsData header = true) :
    parseCSV (header :: rest) = recordOfRow header :: rest.map recordOfRow := by
  unfold parseCSV
  have hlen : ¬ (header :: rest).length < 2 := by
    cases rest with
    | nil => exact absurd rfl hrest
    | cons b t => simp [List.length_cons]
  simp [hlen, hdata]
  exact List.length_pos.mpr hrest

/-- C9, witness: the spec's example first row followed by one data row:
both rows become records, mapped positionally (`subdomain`, `value`,
`type`, `date` = columns 0, 1, 2, 3). -/
theorem c9_header_sniffing_witness :
    parseCSV [["example.com", "A", "1.1.1.1", "2024-01-01"],
              ["b.example.com", "2.2.2.2", "CNAME", "2024-02-02"]]
      = [{ subdomain := "example.com", value := "A", type := "1.1.1.1",
           date := "2024-01-01" },
         { subdomain := "b.example.com", value := "2.2.2.2", type := "CNAME",
           date := "2024-02-02" }] :=
  c9_header_sniffing ["example.com", "A", "1.1.1.1", "2024-01-01"]
    [["b.example.com", "2.2.2.2", "CNAME", "2024-02-02"]] (by decide) (by decide)

/-- C10: a CSV input with fewer than two rows parses to the empty record
list (and `parseCSV` reports no error on this path — the guard returns the
empty slice with a `nil` error), even when the single row would qualify as
a data row. -/
theorem c10_short_csv (rows : List (List String)) (h : rows.length < 2) :
    parseCSV rows = [] := by
  unfold parseCSV
  simp [h]

/-- C10, witness: the one-row file of C9's example parses to no records. -/
theorem c10_short_csv_witness :
    parseCSV [["example.com", "A", "1.1.1.1", "2024-01-01"]] = [] :=
  c10_short_csv [["example.com", "A", "1.1.1.1", "2024-01-01"]] (by decide)
